import Mathlib

/-!
Shallow embedding of the backend snapshot engine in `src/src-tauri/src/main.rs`
(a Tauri process monitor).  Pure data flow is translated directly; the OS
facts provider (`sysinfo::System`), the wall clock (`Instant`) and the
external `nettop` invocation are modelled as explicit inputs, and each
`Mutex::lock` is modelled as a boolean "acquisition succeeded" input, with
failure producing the exact error string of the source.  Machine integers
(`u64`, `u32`) are `Nat` with explicit `% 2^64` where the source can wrap.
-/

namespace NeoHtop

/-- `u64::MAX`. -/
def U64MAX : ℕ := 2 ^ 64 - 1

/-- Release-mode `u64` subtraction `a - b` as in
`(current_rx - last_update.1)` (main.rs:156): wraps modulo `2^64` when
`b > a`.  (A debug build would panic instead; the shipped app is a release
build.)  Inputs are `u64` values, i.e. `< 2^64`. -/
def wrapSub (a b : ℕ) : ℕ := (a + 2 ^ 64 - b) % 2 ^ 64

/-- Model of `(diff as f64 / elapsed) as u64` (main.rs:156-157).  The
conversion of the (nonnegative integer) difference to `f64` is modelled as
exact; `elapsed` is an exact rational.  IEEE semantics of the cast back to
`u64`: a nonnegative finite quotient truncates toward zero and saturates at
`u64::MAX`; `x / 0.0` with `x > 0` is `+inf`, which saturates to `u64::MAX`;
`0.0 / 0.0` is NaN, which casts to `0`; a negative quotient casts to `0`. -/
def f64DivToU64 (diff : ℕ) (elapsed : ℚ) : ℕ :=
  if elapsed = 0 then (if diff = 0 then 0 else U64MAX)
  else if elapsed < 0 then 0
  else min U64MAX (Int.toNat ⌊(diff : ℚ) / elapsed⌋)

/-- `ProcessStatus` of the `sysinfo` crate (the OS status enum matched at
main.rs:209-214). -/
inductive ProcessStatus where
  | Idle
  | Run
  | Sleep
  | Stop
  | Zombie
  | Tracing
  | Dead
  | Wakekill
  | Waking
  | Parked
  | LockBlocked
  | UninterruptibleDiskSleep
  | Unknown (code : ℕ)
deriving DecidableEq

/-- The `match status` at main.rs:209-214. -/
def statusStr : ProcessStatus → String
  | ProcessStatus.Run => "Running"
  | ProcessStatus.Sleep => "Sleeping"
  | ProcessStatus.Idle => "Idle"
  | _ => "Unknown"

/-- `struct ProcessStaticInfo` (main.rs:45-49). -/
structure ProcessStaticInfo where
  name : String
  command : String
  user : String
deriving DecidableEq

/-- One element of `processes_data` (main.rs:130-145): the tuple
`(pid, name, cmd, user_id, cpu_usage, memory, status, parent)` read from the
OS while holding the system lock.  `user_id` is the numeric uid
(`process.user_id()`), stringified later. -/
structure ProcObs where
  pid : ℕ
  name : String
  cmd : List String
  user_id : Option ℕ
  cpu_usage : ℚ
  memory : ℕ
  status : ProcessStatus
  parent : Option ℕ

/-- `struct ProcessInfo` (main.rs:51-64). -/
structure ProcessInfo where
  pid : ℕ
  ppid : ℕ
  name : String
  cpu_usage : ℚ
  memory_usage : ℕ
  network_rx : ℕ
  network_tx : ℕ
  status : String
  user : String
  command : String
  threads : Option ℕ
deriving DecidableEq

/-- `struct SystemStats` (main.rs:66-80). -/
structure SystemStats where
  cpu_usage : List ℚ
  memory_total : ℕ
  memory_used : ℕ
  memory_free : ℕ
  memory_cached : ℕ
  uptime : ℕ
  load_avg : ℚ × ℚ × ℚ
  network_rx_bytes : ℕ
  network_tx_bytes : ℕ
  disk_total_bytes : ℕ
  disk_used_bytes : ℕ
  disk_free_bytes : ℕ
deriving DecidableEq

/-- A disk as read from `sys.disks()` (mount point, total space, available
space — the three accessors used at main.rs:163-174). -/
structure Disk where
  mount_point : String
  total_space : ℕ
  available_space : ℕ

/-- Everything `get_processes` reads from the refreshed `sysinfo::System`. -/
structure OsReading where
  processes : List ProcObs
  interfaces : List (ℕ × ℕ)
  disks : List Disk
  cpus : List ℚ
  total_memory : ℕ
  used_memory : ℕ
  uptime : ℕ
  load_one : ℚ
  load_five : ℚ
  load_fifteen : ℚ

/-- `process_cache: HashMap<u32, ProcessStaticInfo>` as an association list
(lookup finds the first binding, insertion prepends a fresh key). -/
abbrev ProcessCache := List (ℕ × ProcessStaticInfo)

/-- HashMap lookup on the cache. -/
def cacheLookup : ProcessCache → ℕ → Option ProcessStaticInfo
  | [], _ => none
  | (k, v) :: rest, pid => if pid = k then some v else cacheLookup rest pid

/-- `AppState` (main.rs:21-25): the static-info cache plus the cumulative
network counters stored at the last sample.  The `Instant` of the last
sample is abstracted into the `elapsed` argument of `get_processes`; the
mutexes are modelled as lock-success flags at each call. -/
structure AppState where
  process_cache : ProcessCache
  last_rx : ℕ
  last_tx : ℕ

/-- `network_data: HashMap<u32, (u64, u64)>` lookup. -/
def lookupNet : List (ℕ × (ℕ × ℕ)) → ℕ → Option (ℕ × ℕ)
  | [], _ => none
  | (k, v) :: rest, pid => if pid = k then some v else lookupNet rest pid

/-- `HashMap::insert` on the pid → (rx, tx) map: overwrite the existing
binding if present, otherwise add a new one. -/
def insertNet (m : List (ℕ × (ℕ × ℕ))) (pid : ℕ) (v : ℕ × ℕ) :
    List (ℕ × (ℕ × ℕ)) :=
  if (lookupNet m pid).isSome then
    m.map (fun e => if e.1 = pid then (pid, v) else e)
  else m ++ [(pid, v)]

/-- `process_cache.entry(pid).or_insert_with(|| d)` (main.rs:201-207):
return the stored entry if the pid is present, otherwise insert `d` and
return it. -/
def entryOrInsert (cache : ProcessCache) (pid : ℕ) (d : ProcessStaticInfo) :
    ProcessStaticInfo × ProcessCache :=
  match cacheLookup cache pid with
  | some si => (si, cache)
  | none => (d, (pid, d) :: cache)

/-- The `ProcessStaticInfo` built on first sighting of a pid
(main.rs:202-206): name as observed, `cmd.join(" ")`, uid stringified with
`"-"` for an absent uid. -/
def mkStaticInfo (o : ProcObs) : ProcessStaticInfo :=
  { name := o.name
    command := String.intercalate " " o.cmd
    user := (o.user_id.map (fun u => toString u)).getD "-" }

/-- The closure body of the `.map` at main.rs:200-232: resolve static info
through the cache, default per-process network bytes to `(0, 0)`, map the
status enum, and emit one `ProcessInfo`.  Returns the info plus the cache
after the possible insertion. -/
def buildOne (cache : ProcessCache) (nd : List (ℕ × (ℕ × ℕ))) (o : ProcObs) :
    ProcessInfo × ProcessCache :=
  let e := entryOrInsert cache o.pid (mkStaticInfo o)
  let net := (lookupNet nd o.pid).getD (0, 0)
  ({ pid := o.pid
     ppid := o.parent.getD 0
     name := e.1.name
     cpu_usage := o.cpu_usage
     memory_usage := o.memory
     network_rx := net.1
     network_tx := net.2
     status := statusStr o.status
     user := e.1.user
     command := e.1.command
     threads := none }, e.2)

/-- The whole `processes_data.into_iter().map(...).collect()` loop
(main.rs:198-233), threading the cache mutation through the list. -/
def buildAll (nd : List (ℕ × (ℕ × ℕ))) :
    ProcessCache → List ProcObs → List ProcessInfo × ProcessCache
  | cache, [] => ([], cache)
  | cache, o :: rest =>
    let r := buildOne cache nd o
    let r2 := buildAll nd r.2 rest
    (r.1 :: r2.1, r2.2)

/-- The disk aggregation at main.rs:163-174: filter for mount point exactly
`"/"`, then fold `(total, total - available, available)` sums. -/
def disk_stats (disks : List Disk) : ℕ × ℕ × ℕ :=
  (disks.filter (fun d => d.mount_point == "/")).foldl
    (fun acc d =>
      (acc.1 + d.total_space,
       acc.2.1 + d.total_space - d.available_space,
       acc.2.2 + d.available_space))
    (0, 0, 0)

/-- `get_processes` (main.rs:116-236).  Inputs beyond the stored state: the
refreshed OS reading, the wall-clock seconds elapsed since the last network
sample (`last_update.0.elapsed().as_secs_f64()`), the per-process network
map returned by `get_network_usage`, and one success flag per mutex
acquisition (`sys`, `last_network_update`, `process_cache`).  Returns the
command's `Result` together with the post-call `AppState`. -/
def get_processes (st : AppState) (os : OsReading) (elapsed : ℚ)
    (network_data : List (ℕ × (ℕ × ℕ)))
    (sysLockOk netLockOk cacheLockOk : Bool) :
    Except String (List ProcessInfo × SystemStats) × AppState :=
  if sysLockOk = false then (Except.error "Failed to lock system state", st)
  else
    let current_rx := (os.interfaces.map Prod.fst).sum
    let current_tx := (os.interfaces.map Prod.snd).sum
    if netLockOk = false then (Except.error "Failed to lock network state", st)
    else
      let network_stats :=
        (f64DivToU64 (wrapSub current_rx st.last_rx) elapsed,
         f64DivToU64 (wrapSub current_tx st.last_tx) elapsed)
      let dstats := disk_stats os.disks
      let stats : SystemStats :=
        { cpu_usage := os.cpus
          memory_total := os.total_memory
          memory_used := os.used_memory
          memory_free := os.total_memory - os.used_memory
          memory_cached :=
            os.total_memory - (os.used_memory + (os.total_memory - os.used_memory))
          uptime := os.uptime
          load_avg := (os.load_one, os.load_five, os.load_fifteen)
          network_rx_bytes := network_stats.1
          network_tx_bytes := network_stats.2
          disk_total_bytes := dstats.1
          disk_used_bytes := dstats.2.1
          disk_free_bytes := dstats.2.2 }
      let st1 : AppState :=
        { st with last_rx := current_rx, last_tx := current_tx }
      if cacheLockOk = false then
        (Except.error "Failed to lock process cache", st1)
      else
        let pr := buildAll network_data st1.process_cache os.processes
        (Except.ok (pr.1, stats), { st1 with process_cache := pr.2 })

/-- Projection: the `SystemStats` of a successful `get_processes` result. -/
def okStats : Except String (List ProcessInfo × SystemStats) × AppState →
    Option SystemStats
  | (Except.ok (_, s), _) => some s
  | _ => none

/-- Projection: the process list of a successful `get_processes` result. -/
def okProcs : Except String (List ProcessInfo × SystemStats) × AppState →
    Option (List ProcessInfo)
  | (Except.ok (ps, _), _) => some ps
  | _ => none

/-- The process table seen by `kill_process`: pid → whether `process.kill()`
would report the termination request as accepted. -/
structure Proc where
  kill_result : Bool

/-- `kill_process` (main.rs:238-246): error only when the `sys` lock cannot
be acquired; `Ok(process.kill())` when the pid is found; `Ok(false)` when it
is not. -/
def kill_process (sysLockOk : Bool) (table : List (ℕ × Proc)) (pid : ℕ) :
    Except String Bool :=
  if sysLockOk = false then Except.error "Failed to lock system state"
  else
    match table.lookup pid with
    | some p => Except.ok p.kill_result
    | none => Except.ok false

/-! ## The nettop output parser (`get_network_usage_macos`, main.rs:82-105)

The regex `[^\s]+\.(\d+),(\d+),(\d+),` is embedded for this fixed pattern:
the escaped dot must fall inside a maximal run of non-whitespace characters
with at least one character of the run before it; the three capture groups
are maximal digit runs each followed by a literal comma (a digit run cannot
backtrack past a comma, so greedy matching is deterministic there).  The
regex engine reports the leftmost match, with the greedy `[^\s]+` giving the
rightmost workable dot inside that run. -/

/-- Match `(\d+),(\d+),(\d+),` at the start of `cs` and return the three
digit groups. -/
def matchAfterDot (cs : List Char) : Option (String × String × String) :=
  let d1 := cs.takeWhile Char.isDigit
  let r1 := cs.dropWhile Char.isDigit
  if d1 = [] then none else
  match r1 with
  | ',' :: r2 =>
    let d2 := r2.takeWhile Char.isDigit
    let r3 := r2.dropWhile Char.isDigit
    if d2 = [] then none else
    match r3 with
    | ',' :: r4 =>
      let d3 := r4.takeWhile Char.isDigit
      let r5 := r4.dropWhile Char.isDigit
      if d3 = [] then none else
      match r5 with
      | ',' :: _ => some (String.mk d1, String.mk d2, String.mk d3)
      | _ => none
    | _ => none
  | _ => none

/-- Within the maximal non-whitespace run starting `cs`, try every position
`k ≥ 1` holding a `'.'` and keep the rightmost one whose suffix matches
`(\d+),(\d+),(\d+),` — the greedy backtracking of `[^\s]+\.`. -/
def greedyDot (cs : List Char) : Option (String × String × String) :=
  let n := (cs.takeWhile (fun c => !c.isWhitespace)).length
  (List.range n).foldl
    (fun acc k =>
      if 1 ≤ k ∧ cs.get? k = some '.' then
        match matchAfterDot (cs.drop (k + 1)) with
        | some g => some g
        | none => acc
      else acc)
    none

/-- Scan the line run by run, left to right, for the leftmost run containing
a workable match (`Regex::captures` finds the leftmost match).  Structural
recursion on a fuel bounded by the line length. -/
def findMatchAux : ℕ → List Char → Option (String × String × String)
  | 0, _ => none
  | _ + 1, [] => none
  | fuel + 1, c :: rest =>
    if c.isWhitespace then findMatchAux fuel rest
    else
      match greedyDot (c :: rest) with
      | some g => some g
      | none => findMatchAux fuel (rest.dropWhile (fun ch => !ch.isWhitespace))

/-- `re.captures(&line)` for the fixed nettop pattern. -/
def findMatch (cs : List Char) : Option (String × String × String) :=
  findMatchAux cs.length cs

/-- Digit string to value (the capture groups are guaranteed digit-only). -/
def digitsToNat (s : List Char) : ℕ :=
  s.foldl (fun a c => 10 * a + (c.toNat - 48)) 0

/-- `str::parse::<u32>()` on a regex `\d+` capture: nonempty digits, fails
exactly on overflow. -/
def parseU32 (s : String) : Option ℕ :=
  if s.data ≠ [] ∧ s.data.all Char.isDigit ∧ digitsToNat s.data < 2 ^ 32 then
    some (digitsToNat s.data)
  else none

/-- `str::parse::<u64>()` on a regex `\d+` capture. -/
def parseU64 (s : String) : Option ℕ :=
  if s.data ≠ [] ∧ s.data.all Char.isDigit ∧ digitsToNat s.data < 2 ^ 64 then
    some (digitsToNat s.data)
  else none

/-- One iteration of the `for line in ... .lines()` loop (main.rs:94-101).
A line with no regex match leaves the map unchanged; a matching line whose
numeric capture fails to parse panics the call — the `.unwrap()` at
main.rs:96-98 — modelled as `none` swallowing the whole computation. -/
def nettopStep (acc : Option (List (ℕ × (ℕ × ℕ)))) (line : String) :
    Option (List (ℕ × (ℕ × ℕ))) :=
  acc.bind (fun m =>
    match findMatch line.data with
    | none => some m
    | some (s1, s2, s3) =>
      match parseU32 s1, parseU64 s2, parseU64 s3 with
      | some pid, some rx, some tx => some (insertNet m pid (rx, tx))
      | _, _, _ => none)

/-- `get_network_usage_macos` (main.rs:82-105), with the captured stdout of
the `nettop` invocation supplied as the list of its lines.  `none` models
the panic of an `.unwrap()` on a malformed numeric field. -/
def get_network_usage_macos (lines : List String) :
    Option (List (ℕ × (ℕ × ℕ))) :=
  lines.foldl nettopStep (some [])

/-- `get_network_usage` (main.rs:107-114): the macOS variant parses nettop
output; every other platform returns an empty map. -/
def get_network_usage (isMacos : Bool) (lines : List String) :
    Option (List (ℕ × (ℕ × ℕ))) :=
  if isMacos then get_network_usage_macos lines else some []

/-- Spec-worded variant of the rate division for comparison with the code:
the minimum-epsilon floor the specification describes ("treat
sub-millisecond elapsed as a minimum epsilon"), i.e. the elapsed time is
floored at one millisecond before dividing.  The code has no such floor. -/
def specFlooredRate (diff : ℕ) (elapsed : ℚ) : ℕ :=
  f64DivToU64 diff (max elapsed (1 / 1000))

/-! ## Concrete fixtures used by the closed evaluations -/

/-- An `OsReading` with every field empty or zero. -/
def baseOs : OsReading :=
  { processes := [], interfaces := [], disks := [], cpus := []
    total_memory := 0, used_memory := 0, uptime := 0
    load_one := 0, load_five := 0, load_fifteen := 0 }

/-- All-zero stats, used as `Option.getD` fallback in closed statements. -/
def fallbackStats : SystemStats :=
  { cpu_usage := [], memory_total := 0, memory_used := 0, memory_free := 0
    memory_cached := 0, uptime := 0, load_avg := (0, 0, 0)
    network_rx_bytes := 0, network_tx_bytes := 0, disk_total_bytes := 0
    disk_used_bytes := 0, disk_free_bytes := 0 }

/-- State with an empty cache and zero stored counters. -/
def emptyState : AppState := { process_cache := [], last_rx := 0, last_tx := 0 }

/-- State whose previous network sample stored rx = 1000, tx = 0. -/
def stC9 : AppState := { process_cache := [], last_rx := 1000, last_tx := 0 }

/-- Reading with one interface at cumulative (rx, tx) = (3000, 0). -/
def osC9 : OsReading := { baseOs with interfaces := [(3000, 0)] }

/-- State whose previous network sample stored rx = tx = 1000. -/
def stC2 : AppState := { process_cache := [], last_rx := 1000, last_tx := 1000 }

/-- Reading after a counter reset: cumulative totals dropped to 500. -/
def osC2 : OsReading := { baseOs with interfaces := [(500, 500)] }

/-- Reading with memory total 16 and used 6. -/
def osW : OsReading := { baseOs with total_memory := 16, used_memory := 6 }

/-- Reading with three disks, mounted at "/", "/data" and "/mnt/usb". -/
def osD : OsReading :=
  { baseOs with disks :=
      [{ mount_point := "/", total_space := 100, available_space := 40 },
       { mount_point := "/data", total_space := 50, available_space := 20 },
       { mount_point := "/mnt/usb", total_space := 8, available_space := 3 }] }

/-- First observation of pid 42. -/
def obsA : ProcObs :=
  { pid := 42, name := "vim", cmd := ["vim", "notes.txt"], user_id := some 501
    cpu_usage := 0, memory := 1024, status := ProcessStatus.Run, parent := some 1 }

/-- Second observation of pid 42, with different name, argv and uid. -/
def obsB : ProcObs :=
  { pid := 42, name := "nvim", cmd := ["nvim"], user_id := some 0
    cpu_usage := 2, memory := 2048, status := ProcessStatus.Sleep, parent := some 1 }

/-- Snapshot whose process table is just `obsA`. -/
def osA : OsReading := { baseOs with processes := [obsA] }

/-- Snapshot whose process table is just `obsB`. -/
def osB : OsReading := { baseOs with processes := [obsB] }

end NeoHtop

namespace NeoHtop

/-! ## Theorems -/

/-- Helper: on a fully successful lock acquisition, `get_processes` returns
exactly the assembled `SystemStats` (definitional unfolding). -/
theorem okStats_get_processes_true (st : AppState) (os : OsReading)
    (elapsed : ℚ) (nd : List (ℕ × (ℕ × ℕ))) :
    okStats (get_processes st os elapsed nd true true true) =
      some
        { cpu_usage := os.cpus
          memory_total := os.total_memory
          memory_used := os.used_memory
          memory_free := os.total_memory - os.used_memory
          memory_cached :=
            os.total_memory - (os.used_memory + (os.total_memory - os.used_memory))
          uptime := os.uptime
          load_avg := (os.load_one, os.load_five, os.load_fifteen)
          network_rx_bytes :=
            f64DivToU64 (wrapSub (os.interfaces.map Prod.fst).sum st.last_rx) elapsed
          network_tx_bytes :=
            f64DivToU64 (wrapSub (os.interfaces.map Prod.snd).sum st.last_tx) elapsed
          disk_total_bytes := (disk_stats os.disks).1
          disk_used_bytes := (disk_stats os.disks).2.1
          disk_free_bytes := (disk_stats os.disks).2.2 } := rfl

/-- Helper: if any lock acquisition fails, `get_processes` returns no
stats. -/
theorem okStats_get_processes_err (st : AppState) (os : OsReading)
    (elapsed : ℚ) (nd : List (ℕ × (ℕ × ℕ))) (l1 l2 l3 : Bool)
    (h : l1 = false ∨ l2 = false ∨ l3 = false) :
    okStats (get_processes st os elapsed nd l1 l2 l3) = none := by
  rcases h with h | h | h <;> subst h
  · rfl
  · cases l1 <;> rfl
  · cases l1 <;> cases l2 <;> rfl

/-- C4: for every successful `get_processes` call with `memory_used ≤
memory_total`, the `memory_cached` field of the returned `SystemStats` is 0,
being computed as `total - (used + (total - used))`. -/
theorem memory_cached_always_zero (st : AppState) (os : OsReading)
    (elapsed : ℚ) (nd : List (ℕ × (ℕ × ℕ))) (l1 l2 l3 : Bool)
    (stats : SystemStats)
    (hmem : os.used_memory ≤ os.total_memory)
    (hok : okStats (get_processes st os elapsed nd l1 l2 l3) = some stats) :
    stats.memory_cached = 0 := by
  cases l1
  · rw [okStats_get_processes_err st os elapsed nd _ _ _ (Or.inl rfl)] at hok
    exact absurd hok (by simp)
  cases l2
  · rw [okStats_get_processes_err st os elapsed nd _ _ _ (Or.inr (Or.inl rfl))] at hok
    exact absurd hok (by simp)
  cases l3
  · rw [okStats_get_processes_err st os elapsed nd _ _ _ (Or.inr (Or.inr rfl))] at hok
    exact absurd hok (by simp)
  rw [okStats_get_processes_true] at hok
  injection hok with h
  subst h
  show os.total_memory - (os.used_memory + (os.total_memory - os.used_memory)) = 0
  omega

/-- C4 witness: a concrete successful call has `memory_cached = 0`. -/
theorem memory_cached_always_zero_witness :
    osW.used_memory ≤ osW.total_memory ∧
      ((okStats (get_processes emptyState osW 1 [] true true true)).getD
        fallbackStats).memory_cached = 0 :=
  ⟨by decide,
   memory_cached_always_zero emptyState osW 1 [] true true true _
     (by decide) rfl⟩

/-- C10: for every successful `get_processes` call with `memory_used ≤
memory_total`, `memory_free` is `total - used`, so `used + free = total` in
the returned `SystemStats`. -/
theorem memory_used_plus_free (st : AppState) (os : OsReading)
    (elapsed : ℚ) (nd : List (ℕ × (ℕ × ℕ))) (l1 l2 l3 : Bool)
    (stats : SystemStats)
    (hmem : os.used_memory ≤ os.total_memory)
    (hok : okStats (get_processes st os elapsed nd l1 l2 l3) = some stats) :
    stats.memory_used + stats.memory_free = stats.memory_total := by
  cases l1
  · rw [okStats_get_processes_err st os elapsed nd _ _ _ (Or.inl rfl)] at hok
    exact absurd hok (by simp)
  cases l2
  · rw [okStats_get_processes_err st os elapsed nd _ _ _ (Or.inr (Or.inl rfl))] at hok
    exact absurd hok (by simp)
  cases l3
  · rw [okStats_get_processes_err st os elapsed nd _ _ _ (Or.inr (Or.inr rfl))] at hok
    exact absurd hok (by simp)
  rw [okStats_get_processes_true] at hok
  injection hok with h
  subst h
  show os.used_memory + (os.total_memory - os.used_memory) = os.total_memory
  omega

/-- C10 witness: a concrete successful call satisfies the identity. -/
theorem memory_used_plus_free_witness :
    osW.used_memory ≤ osW.total_memory ∧
      (((okStats (get_processes emptyState osW 1 [] true true true)).getD
          fallbackStats).memory_used +
        ((okStats (get_processes emptyState osW 1 [] true true true)).getD
          fallbackStats).memory_free =
        ((okStats (get_processes emptyState osW 1 [] true true true)).getD
          fallbackStats).memory_total) :=
  ⟨by decide,
   memory_used_plus_free emptyState osW 1 [] true true true _
     (by decide) rfl⟩

/-- C8: the status mapping sends `Run` to "Running", `Sleep` to "Sleeping",
`Idle` to "Idle" and every other status variant to "Unknown". -/
theorem status_mapping :
    statusStr ProcessStatus.Run = "Running" ∧
    statusStr ProcessStatus.Sleep = "Sleeping" ∧
    statusStr ProcessStatus.Idle = "Idle" ∧
    ∀ s : ProcessStatus, s ≠ ProcessStatus.Run → s ≠ ProcessStatus.Sleep →
      s ≠ ProcessStatus.Idle → statusStr s = "Unknown" := by
  refine ⟨rfl, rfl, rfl, ?_⟩
  intro s h1 h2 h3
  cases s <;> first | rfl | simp_all

/-- C8 witness: an unrecognized variant maps to "Unknown". -/
theorem status_mapping_witness :
    statusStr (ProcessStatus.Unknown 3) = "Unknown" :=
  status_mapping.2.2.2 _ (by decide) (by decide) (by decide)

/-- C9: with previous stored cumulative rx = 1000, a current reading of 3000
and exactly 1.0 s elapsed, the returned `network_rx_bytes` is 2000. -/
theorem network_rate_example :
    (okStats (get_processes stC9 osC9 1 [] true true true)).map
      SystemStats.network_rx_bytes = some 2000 := by
  have h : f64DivToU64 2000 1 = 2000 := by
    rw [f64DivToU64]
    norm_num [U64MAX]
    rfl
  show some (f64DivToU64 (wrapSub 3000 1000) 1) = some 2000
  have hw : wrapSub 3000 1000 = 2000 := by norm_num [wrapSub]
  rw [hw, h]

/-- C2, evaluated at the failing input: after a counter reset (stored
rx = 1000, current cumulative rx = 500, 1 s elapsed) the release-mode `u64`
subtraction wraps and the call silently reports an astronomically large
rx rate (about 1.8 × 10^19; in the exact-difference model it is
`2^64 - 500`, and the true `f64` rounding of the difference only moves it
to `2^64 - 1`), with no clamp policy anywhere in the code.  A debug build
would panic on the same input instead. -/
theorem network_counter_reset_wraps :
    2 ^ 63 < ((okStats (get_processes stC2 osC2 1 [] true true true)).getD
      fallbackStats).network_rx_bytes := by
  show 2 ^ 63 < f64DivToU64 (wrapSub 500 1000) 1
  have hw : wrapSub 500 1000 = 18446744073709551116 := by norm_num [wrapSub]
  have h : f64DivToU64 18446744073709551116 1 = 18446744073709551116 := by
    rw [f64DivToU64]
    norm_num [U64MAX]
    rfl
  rw [hw, h]
  norm_num

/-- C3 counterexample: the claim says the division is safe because a
minimum-epsilon floor is applied to the elapsed time; at `diff = 2000`,
`elapsed = 0` the code's computation yields `u64::MAX` (the quotient is
`+inf`, saturated by the cast), while the spec-worded epsilon floor would
yield 2000000 — no floor is applied. -/
theorem no_epsilon_floor_counterexample :
    f64DivToU64 2000 0 ≠ specFlooredRate 2000 0 := by
  have h1 : f64DivToU64 2000 0 = U64MAX := by simp [f64DivToU64]
  have hm : max (0 : ℚ) (1 / 1000) = 1 / 1000 := max_eq_right (by norm_num)
  have h2 : specFlooredRate 2000 0 = 2000000 := by
    rw [specFlooredRate, hm, f64DivToU64]
    norm_num [U64MAX]
    rfl
  rw [h1, h2]
  norm_num [U64MAX]

/-- C3 amended: when the elapsed time is 0 the computation still does not
raise a fault — the `f64` division yields `+inf` and the saturating cast
turns any positive difference into `u64::MAX` — but this is IEEE division
semantics, not a minimum-epsilon floor (the code applies none). -/
theorem elapsed_zero_saturates (diff : ℕ) (h : diff ≠ 0) :
    f64DivToU64 diff 0 = U64MAX := by
  simp [f64DivToU64, h]

/-- C3 witness: at difference 2000 and zero elapsed time the rate is
`u64::MAX`. -/
theorem elapsed_zero_saturates_witness :
    f64DivToU64 2000 0 = U64MAX :=
  elapsed_zero_saturates 2000 (by decide)

/-- C6: `kill_process` on a pid missing from the process table returns
`Ok(false)`, never an error; an error arises only from lock-acquisition
failure. -/
theorem kill_process_missing_pid :
    (∀ (table : List (ℕ × Proc)) (pid : ℕ), table.lookup pid = none →
        kill_process true table pid = Except.ok false) ∧
    (∀ (ok : Bool) (table : List (ℕ × Proc)) (pid : ℕ) (e : String),
        kill_process ok table pid = Except.error e → ok = false) := by
  constructor
  · intro table pid h
    simp [kill_process, h]
  · intro ok table pid e h
    cases ok
    · rfl
    · cases h2 : table.lookup pid <;> simp [kill_process, h2] at h

/-- C6 witness: killing pid 7 against an empty process table yields
`Ok(false)`. -/
theorem kill_process_missing_pid_witness :
    kill_process true [] 7 = Except.ok false :=
  kill_process_missing_pid.1 [] 7 rfl

/-- Helper: the disk fold computes componentwise sums whenever every disk
reports `available ≤ total`. -/
theorem disk_fold_sums (l : List Disk)
    (h : ∀ d ∈ l, d.available_space ≤ d.total_space) (a b c : ℕ) :
    l.foldl
      (fun acc d =>
        (acc.1 + d.total_space,
         acc.2.1 + d.total_space - d.available_space,
         acc.2.2 + d.available_space)) (a, b, c)
      = (a + (l.map Disk.total_space).sum,
         b + (l.map (fun d => d.total_space - d.available_space)).sum,
         c + (l.map Disk.available_space).sum) := by
  induction l generalizing a b c with
  | nil => simp
  | cons d rest ih =>
    have hd : d.available_space ≤ d.total_space := h d (List.mem_cons_self _ _)
    have hrest : ∀ x ∈ rest, x.available_space ≤ x.total_space :=
      fun x hx => h x (List.mem_cons_of_mem _ hx)
    simp only [List.foldl_cons, List.map_cons, List.sum_cons]
    rw [ih hrest]
    simp only [Prod.mk.injEq]
    refine ⟨by omega, by omega, by omega⟩

/-- C5: for every successful `get_processes` call whose disks report
`available ≤ total`, only disks mounted exactly at "/" contribute to the
disk totals: prepending a non-root disk leaves `disk_stats` unchanged, and
each aggregate equals the corresponding sum over the root-mounted disks
alone. -/
theorem root_mount_disk_filter (st : AppState) (os : OsReading)
    (elapsed : ℚ) (nd : List (ℕ × (ℕ × ℕ))) (l1 l2 l3 : Bool)
    (stats : SystemStats)
    (hd : ∀ d ∈ os.disks, d.available_space ≤ d.total_space)
    (hok : okStats (get_processes st os elapsed nd l1 l2 l3) = some stats) :
    (∀ (d : Disk) (ds : List Disk), d.mount_point ≠ "/" →
        disk_stats (d :: ds) = disk_stats ds) ∧
    stats.disk_total_bytes =
      ((os.disks.filter (fun d => d.mount_point == "/")).map
        Disk.total_space).sum ∧
    stats.disk_used_bytes =
      ((os.disks.filter (fun d => d.mount_point == "/")).map
        (fun d => d.total_space - d.available_space)).sum ∧
    stats.disk_free_bytes =
      ((os.disks.filter (fun d => d.mount_point == "/")).map
        Disk.available_space).sum := by
  have hfilt : ∀ d ∈ os.disks.filter (fun d => d.mount_point == "/"),
      d.available_space ≤ d.total_space :=
    fun d hdm => hd d (List.mem_of_mem_filter hdm)
  have key : disk_stats os.disks =
      (((os.disks.filter (fun d => d.mount_point == "/")).map
          Disk.total_space).sum,
       ((os.disks.filter (fun d => d.mount_point == "/")).map
          (fun d => d.total_space - d.available_space)).sum,
       ((os.disks.filter (fun d => d.mount_point == "/")).map
          Disk.available_space).sum) := by
    rw [disk_stats, disk_fold_sums _ hfilt]
    simp
  cases l1
  · rw [okStats_get_processes_err st os elapsed nd _ _ _ (Or.inl rfl)] at hok
    exact absurd hok (by simp)
  cases l2
  · rw [okStats_get_processes_err st os elapsed nd _ _ _ (Or.inr (Or.inl rfl))] at hok
    exact absurd hok (by simp)
  cases l3
  · rw [okStats_get_processes_err st os elapsed nd _ _ _ (Or.inr (Or.inr rfl))] at hok
    exact absurd hok (by simp)
  rw [okStats_get_processes_true] at hok
  injection hok with h
  subst h
  refine ⟨fun d ds hne => by simp [disk_stats, List.filter_cons, hne], ?_, ?_, ?_⟩
  · show (disk_stats os.disks).1 = _
    rw [key]
  · show (disk_stats os.disks).2.1 = _
    rw [key]
  · show (disk_stats os.disks).2.2 = _
    rw [key]

/-- C5 witness: on disks mounted at "/", "/data" and "/mnt/usb", only the
"/" entry (total 100) contributes to `disk_total_bytes`. -/
theorem root_mount_disk_filter_witness :
    (∀ d ∈ osD.disks, d.available_space ≤ d.total_space) ∧
    ((okStats (get_processes emptyState osD 1 [] true true true)).getD
        fallbackStats).disk_total_bytes =
      ((osD.disks.filter (fun d => d.mount_point == "/")).map
        Disk.total_space).sum ∧
    ((osD.disks.filter (fun d => d.mount_point == "/")).map
        Disk.total_space).sum = 100 :=
  ⟨by decide,
   (root_mount_disk_filter emptyState osD 1 [] true true true _
      (by decide) rfl).2.1,
   by decide⟩

/-! ## Static info cache lemmas (for C1) -/

/-- Helper: the cache returned by `buildOne` is the cache returned by
`entry(pid).or_insert_with`. -/
theorem buildOne_snd (c : ProcessCache) (nd : List (ℕ × (ℕ × ℕ)))
    (o : ProcObs) :
    (buildOne c nd o).2 = (entryOrInsert c o.pid (mkStaticInfo o)).2 := rfl

/-- Helper: `or_insert_with` on a missing pid prepends the built entry. -/
theorem entryOrInsert_snd_none (c : ProcessCache) (pid : ℕ)
    (d : ProcessStaticInfo) (h : cacheLookup c pid = none) :
    (entryOrInsert c pid d).2 = (pid, d) :: c := by
  simp [entryOrInsert, h]

/-- Helper: `or_insert_with` on a present pid leaves the cache unchanged. -/
theorem entryOrInsert_snd_some (c : ProcessCache) (pid : ℕ)
    (d v : ProcessStaticInfo) (h : cacheLookup c pid = some v) :
    (entryOrInsert c pid d).2 = c := by
  simp [entryOrInsert, h]

/-- Helper: `or_insert_with` on a present pid returns the stored entry. -/
theorem entryOrInsert_fst_some (c : ProcessCache) (pid : ℕ)
    (d v : ProcessStaticInfo) (h : cacheLookup c pid = some v) :
    (entryOrInsert c pid d).1 = v := by
  simp [entryOrInsert, h]

/-- Helper: lookup of a freshly prepended binding. -/
theorem cacheLookup_cons_self (c : ProcessCache) (pid : ℕ)
    (v : ProcessStaticInfo) :
    cacheLookup ((pid, v) :: c) pid = some v := by
  simp [cacheLookup]

/-- Helper: a cached binding survives `buildOne`. -/
theorem buildOne_cache_preserve (c : ProcessCache) (nd : List (ℕ × (ℕ × ℕ)))
    (o : ProcObs) (q : ℕ) (v : ProcessStaticInfo)
    (h : cacheLookup c q = some v) :
    cacheLookup (buildOne c nd o).2 q = some v := by
  rw [buildOne_snd]
  cases hc : cacheLookup c o.pid with
  | some w => rw [entryOrInsert_snd_some c o.pid _ w hc]; exact h
  | none =>
    have hq : q ≠ o.pid := by
      intro he
      rw [he, hc] at h
      cases h
    rw [entryOrInsert_snd_none c o.pid _ hc]
    simpa [cacheLookup, hq] using h

/-- Helper: `buildOne` for a different pid does not affect a lookup. -/
theorem buildOne_cache_other (c : ProcessCache) (nd : List (ℕ × (ℕ × ℕ)))
    (o : ProcObs) (q : ℕ) (hq : q ≠ o.pid) :
    cacheLookup (buildOne c nd o).2 q = cacheLookup c q := by
  rw [buildOne_snd]
  cases hc : cacheLookup c o.pid with
  | some w => rw [entryOrInsert_snd_some c o.pid _ w hc]
  | none =>
    rw [entryOrInsert_snd_none c o.pid _ hc]
    simp [cacheLookup, hq]

/-- Helper: on first sighting, `buildOne` stores the built static info. -/
theorem buildOne_inserts (c : ProcessCache) (nd : List (ℕ × (ℕ × ℕ)))
    (o : ProcObs) (h : cacheLookup c o.pid = none) :
    cacheLookup (buildOne c nd o).2 o.pid = some (mkStaticInfo o) := by
  rw [buildOne_snd, entryOrInsert_snd_none c o.pid _ h]
  exact cacheLookup_cons_self c o.pid (mkStaticInfo o)

/-- Helper: the static fields of the emitted `ProcessInfo` come from the
cached entry, not from the live observation. -/
theorem buildOne_fst_static (c : ProcessCache) (nd : List (ℕ × (ℕ × ℕ)))
    (o : ProcObs) (v : ProcessStaticInfo)
    (h : cacheLookup c o.pid = some v) :
    (buildOne c nd o).1.name = v.name ∧ (buildOne c nd o).1.command = v.command ∧
      (buildOne c nd o).1.user = v.user := by
  have he : (entryOrInsert c o.pid (mkStaticInfo o)).1 = v :=
    entryOrInsert_fst_some c o.pid _ v h
  refine ⟨?_, ?_, ?_⟩ <;> simp [buildOne, he]

/-- Helper: a cached binding survives `buildAll`. -/
theorem buildAll_cache_preserve (nd : List (ℕ × (ℕ × ℕ)))
    (l : List ProcObs) (c : ProcessCache) (q : ℕ) (v : ProcessStaticInfo)
    (h : cacheLookup c q = some v) :
    cacheLookup (buildAll nd c l).2 q = some v := by
  induction l generalizing c with
  | nil => exact h
  | cons o rest ih =>
    exact ih _ (buildOne_cache_preserve c nd o q v h)

/-- Helper: a pid observed by no element of the list stays uncached. -/
theorem buildAll_cache_none (nd : List (ℕ × (ℕ × ℕ)))
    (l : List ProcObs) (c : ProcessCache) (q : ℕ)
    (h : cacheLookup c q = none) (hl : ∀ o ∈ l, o.pid ≠ q) :
    cacheLookup (buildAll nd c l).2 q = none := by
  induction l generalizing c with
  | nil => exact h
  | cons o rest ih =>
    have hq : q ≠ o.pid := fun he => hl o (List.mem_cons_self _ _) he.symm
    refine ih _ ?_ (fun x hx => hl x (List.mem_cons_of_mem _ hx))
    rw [buildOne_cache_other c nd o q hq]
    exact h

/-- Helper: `buildAll` over a concatenation splits into two passes. -/
theorem buildAll_append (nd : List (ℕ × (ℕ × ℕ)))
    (l1 l2 : List ProcObs) (c : ProcessCache) :
    buildAll nd c (l1 ++ l2) =
      ((buildAll nd c l1).1 ++ (buildAll nd (buildAll nd c l1).2 l2).1,
       (buildAll nd (buildAll nd c l1).2 l2).2) := by
  induction l1 generalizing c with
  | nil => simp [buildAll]
  | cons o rest ih => simp [buildAll, ih]

/-- Helper: `buildAll` emits one `ProcessInfo` per observation. -/
theorem buildAll_length (nd : List (ℕ × (ℕ × ℕ)))
    (l : List ProcObs) (c : ProcessCache) :
    (buildAll nd c l).1.length = l.length := by
  induction l generalizing c with
  | nil => rfl
  | cons o rest ih => simp [buildAll, ih]

/-- Helper: on a fully successful lock acquisition, the process list of
`get_processes` is the `buildAll` pass over the observations. -/
theorem okProcs_get_processes_true (st : AppState) (os : OsReading)
    (elapsed : ℚ) (nd : List (ℕ × (ℕ × ℕ))) :
    okProcs (get_processes st os elapsed nd true true true) =
      some (buildAll nd st.process_cache os.processes).1 := rfl

/-- Helper: on a fully successful lock acquisition, the post-call cache is
the `buildAll` cache. -/
theorem cache_get_processes_true (st : AppState) (os : OsReading)
    (elapsed : ℚ) (nd : List (ℕ × (ℕ × ℕ))) :
    (get_processes st os elapsed nd true true true).2.process_cache =
      (buildAll nd st.process_cache os.processes).2 := rfl

/-- C1: first-write-wins of the static info cache.  If pid `o1.pid` is not
cached, the first `get_processes` call observes it first as `o1`, and a
second call observes it again as `o2` (same pid, different name, argv or
uid), then the `ProcessInfo` the second call emits for `o2` carries the
name, command and user stored at the first observation, not the live
values of `o2`. -/
theorem static_cache_first_write_wins (st : AppState) (os1 os2 : OsReading)
    (e1 e2 : ℚ) (nd1 nd2 : List (ℕ × (ℕ × ℕ)))
    (l1a l1b l2a l2b : List ProcObs) (o1 o2 : ProcObs)
    (hos1 : os1.processes = l1a ++ o1 :: l1b)
    (hos2 : os2.processes = l2a ++ o2 :: l2b)
    (h0 : cacheLookup st.process_cache o1.pid = none)
    (h1a : ∀ o ∈ l1a, o.pid ≠ o1.pid)
    (hpid : o2.pid = o1.pid)
    (hdiff : o2.name ≠ o1.name ∨ o2.cmd ≠ o1.cmd ∨ o2.user_id ≠ o1.user_id) :
    ((okProcs (get_processes
        (get_processes st os1 e1 nd1 true true true).2 os2 e2 nd2
        true true true)).bind (fun ps => ps[l2a.length]?)).map
      (fun i => (i.name, i.command, i.user)) =
      some (o1.name, String.intercalate " " o1.cmd,
        (o1.user_id.map (fun u => toString u)).getD "-") := by
  have hc1 : cacheLookup
      (get_processes st os1 e1 nd1 true true true).2.process_cache o1.pid =
      some (mkStaticInfo o1) := by
    rw [cache_get_processes_true, hos1, buildAll_append]
    show cacheLookup
      (buildAll nd1 (buildAll nd1 st.process_cache l1a).2 (o1 :: l1b)).2
      o1.pid = _
    have ha : cacheLookup (buildAll nd1 st.process_cache l1a).2 o1.pid = none :=
      buildAll_cache_none nd1 l1a st.process_cache o1.pid h0 h1a
    show cacheLookup
      (buildAll nd1
        (buildOne (buildAll nd1 st.process_cache l1a).2 nd1 o1).2 l1b).2
      o1.pid = _
    exact buildAll_cache_preserve nd1 l1b _ o1.pid _
      (buildOne_inserts _ nd1 o1 ha)
  rw [okProcs_get_processes_true, Option.some_bind, hos2, buildAll_append]
  have hc2a : cacheLookup
      (buildAll nd2
        (get_processes st os1 e1 nd1 true true true).2.process_cache l2a).2
      o1.pid = some (mkStaticInfo o1) :=
    buildAll_cache_preserve nd2 l2a _ o1.pid _ hc1
  have hfield := buildOne_fst_static
    (buildAll nd2
      (get_processes st os1 e1 nd1 true true true).2.process_cache l2a).2
    nd2 o2 (mkStaticInfo o1) (by rw [hpid]; exact hc2a)
  have hlen : (buildAll nd2
      (get_processes st os1 e1 nd1 true true true).2.process_cache l2a).1.length
      = l2a.length :=
    buildAll_length nd2 l2a _
  have hget : (((buildAll nd2
        (get_processes st os1 e1 nd1 true true true).2.process_cache l2a).1 ++
      (buildAll nd2
        (buildAll nd2
          (get_processes st os1 e1 nd1 true true true).2.process_cache l2a).2
        (o2 :: l2b)).1))[l2a.length]? =
      some (buildOne
        (buildAll nd2
          (get_processes st os1 e1 nd1 true true true).2.process_cache l2a).2
        nd2 o2).1 := by
    rw [List.getElem?_append_right (by rw [hlen]), hlen, Nat.sub_self]
    simp [buildAll]
  show (((buildAll nd2
        (get_processes st os1 e1 nd1 true true true).2.process_cache l2a).1 ++
      (buildAll nd2
        (buildAll nd2
          (get_processes st os1 e1 nd1 true true true).2.process_cache l2a).2
        (o2 :: l2b)).1)[l2a.length]?).map
      (fun i => (i.name, i.command, i.user)) = _
  rw [hget]
  obtain ⟨hn, hcmd, hu⟩ := hfield
  simp [hn, hcmd, hu, mkStaticInfo]

/-- C1 witness: pid 42 is first seen as "vim" (argv `vim notes.txt`,
uid 501) and later reported as "nvim" with different argv and uid; the
second call still emits the first-seen name, command and user. -/
theorem static_cache_first_write_wins_witness :
    cacheLookup emptyState.process_cache obsA.pid = none ∧
    ((okProcs (get_processes (get_processes emptyState osA 1 [] true true true).2
        osB 1 [] true true true)).bind (fun ps => ps[(0 : ℕ)]?)).map
      (fun i => (i.name, i.command, i.user)) =
      some ("vim", "vim notes.txt", "501") :=
  ⟨rfl,
   static_cache_first_write_wins emptyState osA osB 1 1 [] [] [] [] [] []
     obsA obsB rfl rfl rfl (by simp) rfl (Or.inl (by decide))⟩

/-! ## Nettop parser lemmas (for C7) -/

/-- Helper: a line the regex does not match leaves the accumulator
unchanged. -/
theorem nettopStep_skip (acc : Option (List (ℕ × (ℕ × ℕ)))) (line : String)
    (h : findMatch line.data = none) :
    nettopStep acc line = acc := by
  cases acc <;> simp [nettopStep, h]

/-- Helper: a matching line with an unparseable numeric capture turns any
accumulator into `none` (the panic). -/
theorem nettopStep_fail (acc : Option (List (ℕ × (ℕ × ℕ)))) (line : String)
    (s1 s2 s3 : String) (h : findMatch line.data = some (s1, s2, s3))
    (hp : parseU32 s1 = none ∨ parseU64 s2 = none ∨ parseU64 s3 = none) :
    nettopStep acc line = none := by
  cases acc with
  | none => rfl
  | some m =>
    rw [nettopStep, Option.some_bind, h]
    rcases hp with hp | hp | hp <;>
      cases hc1 : parseU32 s1 <;> cases hc2 : parseU64 s2 <;>
        cases hc3 : parseU64 s3 <;> simp_all

/-- Helper: once the sampling call has failed, further lines keep it
failed. -/
theorem foldl_nettopStep_none (lines : List String) :
    lines.foldl nettopStep none = none := by
  induction lines with
  | nil => rfl
  | cons l rest ih => simpa [nettopStep] using ih

/-- C7: nettop parsing.  A line the pattern does not match is silently
skipped (the result is as if the line were absent); a matching line whose
captured numeric field fails to parse makes the whole sampling call fail —
no partial mapping is returned. -/
theorem sampler_skip_or_abort :
    (∀ (pre post : List String) (line : String),
        findMatch line.data = none →
        get_network_usage_macos (pre ++ line :: post) =
          get_network_usage_macos (pre ++ post)) ∧
    (∀ (pre post : List String) (line : String) (s1 s2 s3 : String),
        findMatch line.data = some (s1, s2, s3) →
        parseU32 s1 = none ∨ parseU64 s2 = none ∨ parseU64 s3 = none →
        get_network_usage_macos (pre ++ line :: post) = none) := by
  constructor
  · intro pre post line h
    unfold get_network_usage_macos
    rw [List.foldl_append, List.foldl_append, List.foldl_cons,
      nettopStep_skip _ _ h]
  · intro pre post line s1 s2 s3 h hp
    unfold get_network_usage_macos
    rw [List.foldl_append, List.foldl_cons, nettopStep_fail _ _ _ _ _ h hp,
      foldl_nettopStep_none]

/-- C7 witness: a nettop line whose pid field overflows `u32` aborts the
whole sampling call. -/
theorem sampler_skip_or_abort_witness :
    get_network_usage_macos ["x.99999999999999999999,1,2,"] = none :=
  sampler_skip_or_abort.2 [] [] "x.99999999999999999999,1,2,"
    "99999999999999999999" "1" "2" (by decide) (Or.inl (by decide))

end NeoHtop
